import Mathlib

/-!
Shallow embedding of the resilience/observability core of the Al-Araf web
application: the TTL+LRU `CacheManager`, the `RetryManager` with exponential
backoff and per-key circuit breaker, and the `PerformanceMonitor` health
report.  Timestamps are modelled as integers (milliseconds, `Date.now()`),
durations and fractional statistics as rationals.  JavaScript `Map` objects
are modelled as insertion-ordered association lists; record objects keyed by
strings or severities are modelled as functions into `Option`.  Wall-clock
reads are threaded as explicit arguments.  The purely observational fields
`RetryAttempt.timestamp` and `RetryResult.totalTime` (raw clock stamps) are
not modelled.
-/

set_option maxHeartbeats 1000000

/-! ## CacheManager (cacheManager source file) -/

/-- One cache entry, mirroring the `CacheItem<T>` interface. -/
structure CacheItem (T : Type) where
  value : T
  timestamp : ℤ
  ttl : ℤ
  accessCount : ℕ
  lastAccessed : ℤ
deriving DecidableEq

/-- JS `Map.get`: first (unique) binding of the key in the insertion-ordered list. -/
def mapGet {β : Type} : List (String × β) → String → Option β
  | [], _ => none
  | (a, b) :: rest, k => if a = k then some b else mapGet rest k

/-- JS `Map.set`: overwrite the binding in place if the key exists, else append. -/
def mapSet {β : Type} : List (String × β) → String → β → List (String × β)
  | [], k, v => [(k, v)]
  | (a, b) :: rest, k, v => if a = k then (k, v) :: rest else (a, b) :: mapSet rest k v

/-- JS `Map.delete`: remove the (unique) binding of the key, if present. -/
def mapDelete {β : Type} : List (String × β) → String → List (String × β)
  | [], _ => []
  | (a, b) :: rest, k => if a = k then rest else (a, b) :: mapDelete rest k

/-- State of one `CacheManager` instance: the entry map, the configuration
passed to the constructor, and the hit/miss counters. -/
structure CacheManager (T : Type) where
  cache : List (String × CacheItem T)
  maxSize : ℕ
  defaultTTL : ℤ
  hits : ℕ
  misses : ℕ

/-- Constructor `new CacheManager(maxSize, defaultTTL)`. -/
def emptyCache (T : Type) (maxSize : ℕ) (defaultTTL : ℤ) : CacheManager T :=
  { cache := [], maxSize := maxSize, defaultTTL := defaultTTL, hits := 0, misses := 0 }

/-- The scan loop of `evictLRU`: starting from `oldestKey = ''` and
`oldestTime = Date.now()`, replace the candidate whenever an entry's
`lastAccessed` is strictly smaller than the current `oldestTime`. -/
def evictLRUScan {T : Type} : List (String × CacheItem T) → String → ℤ → String
  | [], oldestKey, _ => oldestKey
  | (k, it) :: rest, oldestKey, oldestTime =>
    if it.lastAccessed < oldestTime then evictLRUScan rest k it.lastAccessed
    else evictLRUScan rest oldestKey oldestTime

/-- Method `evictLRU()`: delete the scanned key, but only when it is truthy
(a non-empty string). -/
def evictLRU {T : Type} (c : CacheManager T) (now : ℤ) : CacheManager T :=
  let oldestKey := evictLRUScan c.cache "" now
  if oldestKey = "" then c else { c with cache := mapDelete c.cache oldestKey }

/-- Fallback `ttl || this.defaultTTL`: an absent or zero (falsy) `ttl` argument falls
back to the store's default. -/
def resolveTTL {T : Type} (c : CacheManager T) (ttl : Option ℤ) : ℤ :=
  match ttl with
  | none => c.defaultTTL
  | some t => if t = 0 then c.defaultTTL else t

/-- Method `set(key, value, ttl?)`: evict (LRU) when the map already holds at least
`maxSize` entries, then store a fresh entry with `accessCount = 0` and both
timestamps set to `now`. -/
def CacheManager.set {T : Type} (c : CacheManager T) (key : String) (value : T)
    (ttl : Option ℤ) (now : ℤ) : CacheManager T :=
  let itemTTL := resolveTTL c ttl
  let c1 := if c.cache.length ≥ c.maxSize then evictLRU c now else c
  let fresh : CacheItem T :=
    { value := value, timestamp := now, ttl := itemTTL, accessCount := 0,
      lastAccessed := now }
  { c1 with cache := mapSet c1.cache key fresh }

/-- Method `get(key)`: miss on absence; expired entries are deleted and counted as a
miss; otherwise bump `accessCount`/`lastAccessed`, count a hit and return the
value.  Returns the value (`null` as `none`) together with the new state. -/
def CacheManager.get {T : Type} (c : CacheManager T) (key : String) (now : ℤ) :
    Option T × CacheManager T :=
  match mapGet c.cache key with
  | none => (none, { c with misses := c.misses + 1 })
  | some item =>
    if now - item.timestamp > item.ttl then
      (none, { c with cache := mapDelete c.cache key, misses := c.misses + 1 })
    else
      (some item.value,
       { c with
         cache := mapSet c.cache key
           { item with accessCount := item.accessCount + 1, lastAccessed := now },
         hits := c.hits + 1 })

/-- Method `has(key)`: same expiry check as `get` but no counter/metadata update. -/
def CacheManager.has {T : Type} (c : CacheManager T) (key : String) (now : ℤ) :
    Bool × CacheManager T :=
  match mapGet c.cache key with
  | none => (false, c)
  | some item =>
    if now - item.timestamp > item.ttl then
      (false, { c with cache := mapDelete c.cache key })
    else
      (true, c)

/-- Method `delete(key)`. -/
def CacheManager.del {T : Type} (c : CacheManager T) (key : String) : CacheManager T :=
  { c with cache := mapDelete c.cache key }

/-- Method `clear()`: drop all entries and reset both counters. -/
def CacheManager.clear {T : Type} (c : CacheManager T) : CacheManager T :=
  { c with cache := [], hits := 0, misses := 0 }

/-- Method `cleanup()`: the periodic sweep deleting every expired entry. -/
def CacheManager.cleanup {T : Type} (c : CacheManager T) (now : ℤ) : CacheManager T :=
  { c with cache := c.cache.filter (fun p => !(decide (now - p.2.timestamp > p.2.ttl))) }

/-- The `CacheStats` record returned by `getStats()`. -/
structure CacheStats where
  totalItems : ℕ
  hitRate : ℚ
  missRate : ℚ
  totalHits : ℕ
  totalMisses : ℕ
  memoryUsage : ℕ

/-- Heuristic per-entry memory estimate: `key.length * 2 +
JSON.stringify(value).length * 2 + 64`; the serialized length of a value is
supplied as the function `serLen`. -/
def entrySize {T : Type} (serLen : T → ℕ) (p : String × CacheItem T) : ℕ :=
  p.1.length * 2 + serLen p.2.value * 2 + 64

/-- Method `getStats()`. -/
def CacheManager.getStats {T : Type} (c : CacheManager T) (serLen : T → ℕ) : CacheStats :=
  let totalRequests := c.hits + c.misses
  { totalItems := c.cache.length
    hitRate := if 0 < totalRequests then ((c.hits : ℚ) / (totalRequests : ℚ)) * 100 else 0
    missRate := if 0 < totalRequests then ((c.misses : ℚ) / (totalRequests : ℚ)) * 100 else 0
    totalHits := c.hits
    totalMisses := c.misses
    memoryUsage := c.cache.foldl (fun acc p => acc + entrySize serLen p) 0 }

/-- Method `getMostUsed(limit)`: all entries projected to `(key, accessCount)`,
sorted descending by `accessCount`, truncated to `limit`. -/
def CacheManager.getMostUsed {T : Type} (c : CacheManager T) (limit : ℕ) :
    List (String × ℕ) :=
  ((c.cache.map (fun p => (p.1, p.2.accessCount))).mergeSort
    (fun a b => decide (b.2 ≤ a.2))).take limit

/-! ## RetryManager (retryManager source file)

The asynchronous operation is modelled as a function from the attempt ordinal
(numbered from 1) to `Except ε α`; `Math.random()` draws are threaded as the
explicit argument `rand` (one rational per attempt). -/

/-- The `RetryConfig` interface; `retryCondition` over an opaque error type. -/
structure RetryConfig (ε : Type) where
  maxAttempts : ℕ
  baseDelay : ℚ
  maxDelay : ℚ
  backoffFactor : ℚ
  jitter : Bool
  retryCondition : ε → Bool

/-- One `RetryAttempt` record (the wall-clock `timestamp` field is not
modelled). -/
structure RetryAttempt (ε : Type) where
  attempt : ℕ
  error : ε
  delay : ℚ
deriving DecidableEq

/-- The `RetryResult<T>` record (the wall-clock `totalTime` field is not
modelled). -/
structure RetryResult (ε α : Type) where
  success : Bool
  result : Option α
  error : Option ε
  attempts : List (RetryAttempt ε)
deriving DecidableEq

/-- Method `calculateDelay(attempt, config)`: exponential backoff capped at
`maxDelay`, optional ±10% jitter driven by the `Math.random()` draw `rand`
(a value in [0,1]), clamped to be nonnegative. -/
def calculateDelay {ε : Type} (attempt : ℕ) (config : RetryConfig ε) (rand : ℚ) : ℚ :=
  let delay := config.baseDelay * config.backoffFactor ^ (attempt - 1)
  let delay := min delay config.maxDelay
  let delay :=
    if config.jitter then
      let jitterAmount := delay * (1 / 10)
      delay + (rand - 1 / 2) * 2 * jitterAmount
    else delay
  max delay 0

/-- The `for (attempt = 1; attempt <= maxAttempts; ...)` loop of `execute`,
with the remaining iteration count as structural fuel.  Falling off the end
of the loop (the `throw new Error('Unexpected end of retry loop')` line) is
`none`. -/
def executeLoop {ε α : Type} (op : ℕ → Except ε α) (cfg : RetryConfig ε)
    (rand : ℕ → ℚ) : ℕ → ℕ → List (RetryAttempt ε) → Option (RetryResult ε α)
  | _, 0, _ => none
  | attempt, rem + 1, attempts =>
    match op attempt with
    | Except.ok result =>
      some { success := true, result := some result, error := none,
             attempts := attempts }
    | Except.error err =>
      let shouldRetry := cfg.retryCondition err
      if shouldRetry = false ∨ attempt = cfg.maxAttempts then
        some { success := false, result := none, error := some err,
               attempts := attempts ++ [{ attempt := attempt, error := err, delay := 0 }] }
      else
        let delay := calculateDelay attempt cfg (rand attempt)
        executeLoop op cfg rand (attempt + 1) rem
          (attempts ++ [{ attempt := attempt, error := err, delay := delay }])

/-- Method `execute(operation, config)`. -/
def execute {ε α : Type} (op : ℕ → Except ε α) (cfg : RetryConfig ε)
    (rand : ℕ → ℚ) : Option (RetryResult ε α) :=
  executeLoop op cfg rand 1 cfg.maxAttempts []

/-! ### Circuit breaker -/

/-- The three circuit phases (`'closed' | 'open' | 'half-open'`). -/
inductive CBPhase : Type
  | closed
  | opened
  | halfOpen
deriving DecidableEq

/-- Per-key circuit state (`failures`, `lastFailure`, `state`). -/
structure CBState where
  failures : ℕ
  lastFailure : ℤ
  state : CBPhase
deriving DecidableEq

/-- The `circuitStates` map. -/
abbrev CircuitMap : Type := String → Option CBState

/-- The initial (empty) `circuitStates` map. -/
def emptyCircuits : CircuitMap := fun _ => none

/-- Method `isCircuitOpen(key)`: no state means closed; an open circuit whose last
failure is more than 60 s old transitions to half-open and reports not-open;
otherwise report whether the phase is open.  Returns the answer together with
the (possibly mutated) map. -/
def isCircuitOpen (m : CircuitMap) (key : String) (now : ℤ) : Bool × CircuitMap :=
  match m key with
  | none => (false, m)
  | some st =>
    if st.state = CBPhase.opened ∧ now - st.lastFailure > 60000 then
      (false, fun k => if k = key then some { st with state := CBPhase.halfOpen } else m k)
    else
      (decide (st.state = CBPhase.opened), m)

/-- Method `recordSuccess(key)`: reset failures and close the circuit (no-op when the
key has no state). -/
def recordSuccess (m : CircuitMap) (key : String) : CircuitMap :=
  match m key with
  | none => m
  | some st =>
    fun k => if k = key then some { st with failures := 0, state := CBPhase.closed }
             else m k

/-- Method `recordFailure(key)`: create the state on first failure, bump the counter,
stamp the failure time, and open the circuit at 5 consecutive failures. -/
def recordFailure (m : CircuitMap) (key : String) (now : ℤ) : CircuitMap :=
  let st0 :=
    match m key with
    | none => ({ failures := 0, lastFailure := now, state := CBPhase.closed } : CBState)
    | some st => st
  let st1 := { st0 with failures := st0.failures + 1, lastFailure := now }
  let st2 := if st1.failures ≥ 5 then { st1 with state := CBPhase.opened } else st1
  fun k => if k = key then some st2 else m k

/-- Method `retryWithCircuitBreaker(operation, circuitBreakerKey, config)`: raise a
synchronous `circuit open` error when the breaker reports open (the wrapped
operation is never consulted); otherwise run `execute` and record the overall
result on the breaker.  `tCheck` is the clock at the breaker check, `tDone`
the clock when the outcome is recorded. -/
def retryWithCircuitBreaker {ε α : Type} (op : ℕ → Except ε α) (key : String)
    (cfg : RetryConfig ε) (rand : ℕ → ℚ) (m : CircuitMap) (tCheck tDone : ℤ) :
    Except String (RetryResult ε α) × CircuitMap :=
  let checked := isCircuitOpen m key tCheck
  if checked.1 then
    (Except.error ("Circuit breaker is open for " ++ key), checked.2)
  else
    match execute op cfg rand with
    | some r =>
      if r.success then (Except.ok r, recordSuccess checked.2 key)
      else (Except.ok r, recordFailure checked.2 key tDone)
    | none => (Except.error "Unexpected end of retry loop", recordFailure checked.2 key tDone)

/-- The map after `i` successive `retryWithCircuitBreaker` calls on `key`,
the `i`-th call using operation `ops i`, config `cfgs i`, random draws
`rands i`, breaker-check time `tc i` and completion time `td i`. -/
def cbCallSeq {ε α : Type} (key : String) (ops : ℕ → ℕ → Except ε α)
    (cfgs : ℕ → RetryConfig ε) (rands : ℕ → ℕ → ℚ) (tc td : ℕ → ℤ) :
    ℕ → CircuitMap
  | 0 => emptyCircuits
  | i + 1 =>
    (retryWithCircuitBreaker (ops i) key (cfgs i) (rands i)
      (cbCallSeq key ops cfgs rands tc td i) (tc i) (td i)).2

/-! ## PerformanceMonitor (performanceMonitor.ts) -/

/-- One `PerformanceMetric` record (the optional `error`/`metadata` fields
play no role in the statistics and are not modelled). -/
structure PerformanceMetric where
  timestamp : ℤ
  operation : String
  duration : ℚ
  success : Bool
deriving DecidableEq

/-- The four error severities. -/
inductive Severity : Type
  | low
  | medium
  | high
  | critical
deriving DecidableEq

/-- One `ErrorLog` record (browser-environment fields `userAgent`/`url` are
not modelled). -/
structure ErrorLog where
  timestamp : ℤ
  errorText : String
  context : String
  severity : Severity
deriving DecidableEq

/-- One entry of the `operationBreakdown` record. -/
structure OpBreakdown where
  count : ℕ
  avgTime : ℚ
  successRate : ℚ
deriving DecidableEq

/-- Window filter `this.metrics.filter(m => m.timestamp >= cutoff)` with
`cutoff = now - timeRange`. -/
def recentMetrics (metrics : List PerformanceMetric) (now timeRange : ℤ) :
    List PerformanceMetric :=
  metrics.filter (fun m => decide (now - timeRange ≤ m.timestamp))

/-- One step of the `operationBreakdown` fold: create the `{count: 0,
avgTime: 0, successRate: 0}` entry if absent, then `count++` and update the
running average `avgTime = (avgTime * (count - 1) + duration) / count`. -/
def breakdownStep (acc : String → Option OpBreakdown) (m : PerformanceMetric) :
    String → Option OpBreakdown :=
  fun name =>
    if name = m.operation then
      let b0 := (acc name).getD { count := 0, avgTime := 0, successRate := 0 }
      let newCount := b0.count + 1
      some { count := newCount,
             avgTime := (b0.avgTime * ((newCount : ℚ) - 1) + m.duration) / (newCount : ℚ),
             successRate := b0.successRate }
    else acc name

/-- The record returned by `getPerformanceStats` (the breakdown as a function
from operation name to its entry; absent key = `none`). -/
structure PerfStats where
  totalOperations : ℕ
  successRate : ℚ
  averageResponseTime : ℚ
  slowestOperations : List PerformanceMetric
  operationBreakdown : String → Option OpBreakdown

/-- Method `getPerformanceStats(timeRange)`: filter to the trailing window, compute
totals, rates and mean, the 10 slowest samples, the per-name incremental
breakdown, then the second pass filling each name's `successRate`. -/
def getPerformanceStats (metrics : List PerformanceMetric) (now timeRange : ℤ) :
    PerfStats :=
  let recent := recentMetrics metrics now timeRange
  let totalOperations := recent.length
  let successfulOperations := (recent.filter (fun m => m.success)).length
  let successRate : ℚ :=
    if 0 < totalOperations then ((successfulOperations : ℚ) / (totalOperations : ℚ)) * 100
    else 0
  let totalTime := recent.foldl (fun sum m => sum + m.duration) 0
  let averageResponseTime : ℚ :=
    if 0 < totalOperations then totalTime / (totalOperations : ℚ) else 0
  let slowest := (recent.mergeSort (fun a b => decide (b.duration ≤ a.duration))).take 10
  let bd0 := recent.foldl breakdownStep (fun _ => none)
  let bd : String → Option OpBreakdown := fun name =>
    (bd0 name).map (fun b =>
      let opMetrics := recent.filter (fun m => decide (m.operation = name))
      let successful := (opMetrics.filter (fun m => m.success)).length
      { b with successRate := ((successful : ℚ) / (opMetrics.length : ℚ)) * 100 })
  { totalOperations := totalOperations, successRate := successRate,
    averageResponseTime := averageResponseTime, slowestOperations := slowest,
    operationBreakdown := bd }

/-- Window filter `this.errors.filter(e => e.timestamp >= cutoff)`. -/
def recentErrors (errors : List ErrorLog) (now timeRange : ℤ) : List ErrorLog :=
  errors.filter (fun e => decide (now - timeRange ≤ e.timestamp))

/-- One step of the `errorsBySeverity` fold:
`errorsBySeverity[e.severity] = (errorsBySeverity[e.severity] || 0) + 1`;
a key is present only once an error of that severity has been seen. -/
def sevStep (acc : Severity → Option ℕ) (e : ErrorLog) : Severity → Option ℕ :=
  fun s => if s = e.severity then some ((acc s).getD 0 + 1) else acc s

/-- The `errorsBySeverity` record over a list of (window-filtered) errors. -/
def errorsBySeverityRec (errs : List ErrorLog) : Severity → Option ℕ :=
  errs.foldl sevStep (fun _ => none)

/-- One step of the `errorsByContext` fold. -/
def ctxStep (acc : String → Option ℕ) (e : ErrorLog) : String → Option ℕ :=
  fun s => if s = e.context then some ((acc s).getD 0 + 1) else acc s

/-- The `errorsByContext` record. -/
def errorsByContextRec (errs : List ErrorLog) : String → Option ℕ :=
  errs.foldl ctxStep (fun _ => none)

/-- The record returned by `getErrorStats` (the hourly `errorTrends` buckets
play no role in the claims and are not modelled). -/
structure ErrorStats where
  totalErrors : ℕ
  errorsBySeverity : Severity → Option ℕ
  errorsByContext : String → Option ℕ
  recentErrors20 : List ErrorLog

/-- Method `getErrorStats(timeRange)`; `recentErrors.slice(-20)` is the trailing 20
entries. -/
def getErrorStats (errors : List ErrorLog) (now timeRange : ℤ) : ErrorStats :=
  let recent := recentErrors errors now timeRange
  { totalErrors := recent.length
    errorsBySeverity := errorsBySeverityRec recent
    errorsByContext := errorsByContextRec recent
    recentErrors20 := recent.drop (recent.length - 20) }

/-- A JavaScript number in the health-score arithmetic: a finite value
(modelled as a rational) or `NaN`; an `undefined` record field coerces to
`NaN` when used as a number. -/
inductive JSNum : Type
  | nan : JSNum
  | num : ℚ → JSNum
deriving DecidableEq

/-- JS subtraction (`NaN` propagates). -/
def jsSub : JSNum → JSNum → JSNum
  | JSNum.num a, JSNum.num b => JSNum.num (a - b)
  | _, _ => JSNum.nan

/-- JS multiplication (`NaN` propagates). -/
def jsMul : JSNum → JSNum → JSNum
  | JSNum.num a, JSNum.num b => JSNum.num (a * b)
  | _, _ => JSNum.nan

/-- JS `Math.min` (returns `NaN` if an argument is `NaN`). -/
def jsMin : JSNum → JSNum → JSNum
  | JSNum.num a, JSNum.num b => JSNum.num (min a b)
  | _, _ => JSNum.nan

/-- JS `Math.max` (returns `NaN` if an argument is `NaN`). -/
def jsMax : JSNum → JSNum → JSNum
  | JSNum.num a, JSNum.num b => JSNum.num (max a b)
  | _, _ => JSNum.nan

/-- Reading a count field of the `errorsBySeverity` record as a number:
an absent key is `undefined`, which coerces to `NaN`. -/
def jsOfCount : Option ℕ → JSNum
  | none => JSNum.nan
  | some n => JSNum.num (n : ℚ)

/-- The `healthScore` computation of `generateReport()`: both statistics use
their default 24-hour window; the first two deductions are plain-number
arithmetic, the critical/high deductions read possibly-`undefined` record
fields, and the result is clamped by `Math.max(0, Math.min(100, _))`. -/
def generateHealthScore (metrics : List PerformanceMetric) (errors : List ErrorLog)
    (now : ℤ) : JSNum :=
  let p := getPerformanceStats metrics now (24 * 60 * 60 * 1000)
  let e := getErrorStats errors now (24 * 60 * 60 * 1000)
  let hs1 : ℚ := 100 - max 0 ((95 - p.successRate) * 2)
  let hs2 : ℚ := hs1 - max 0 ((p.averageResponseTime - 2000) / 100)
  let hs3 := jsSub (JSNum.num hs2)
    (jsMul (jsOfCount (e.errorsBySeverity Severity.critical)) (JSNum.num 10))
  let hs4 := jsSub hs3 (jsMul (jsOfCount (e.errorsBySeverity Severity.high)) (JSNum.num 5))
  jsMax (JSNum.num 0) (jsMin (JSNum.num 100) hs4)

/-- Sum of the durations of a list of metrics (specification-side helper for
stating the arithmetic-mean characterisation). -/
def sumDur (l : List PerformanceMetric) : ℚ := (l.map (fun m => m.duration)).sum

/-- Closed form of the incremental-average fold: combining an accumulator
entry with the metrics of one name.  Used to characterise `breakdownStep`. -/
def bdCombine (o : Option OpBreakdown) (sub : List PerformanceMetric) :
    Option OpBreakdown :=
  match o with
  | none =>
    if sub.length = 0 then none
    else some { count := sub.length, avgTime := sumDur sub / (sub.length : ℚ),
                successRate := 0 }
  | some b =>
    if sub.length = 0 then some b
    else some { count := b.count + sub.length,
                avgTime := (b.avgTime * (b.count : ℚ) + sumDur sub) /
                  ((b.count : ℚ) + (sub.length : ℚ)),
                successRate := b.successRate }

/-! ## Theorems -/

/-! ### Association-list lemmas -/

theorem mapGet_mapSet_self {β : Type} (l : List (String × β)) (k : String) (v : β) :
    mapGet (mapSet l k v) k = some v := by
  induction l with
  | nil => simp [mapSet, mapGet]
  | cons p rest ih =>
    obtain ⟨a, b⟩ := p
    by_cases h : a = k
    · simp [mapSet, mapGet, h]
    · simp [mapSet, mapGet, h, ih]

theorem mapGet_mapSet_ne {β : Type} (l : List (String × β)) (k k' : String) (v : β)
    (h : k' ≠ k) : mapGet (mapSet l k v) k' = mapGet l k' := by
  induction l with
  | nil => simp [mapSet, mapGet, Ne.symm h]
  | cons p rest ih =>
    obtain ⟨a, b⟩ := p
    by_cases ha : a = k
    · subst ha
      simp [mapSet, mapGet, Ne.symm h]
    · simp [mapSet, mapGet, ha, ih]

theorem length_mapDelete {β : Type} (l : List (String × β)) (k : String) (v : β)
    (h : mapGet l k = some v) : (mapDelete l k).length + 1 = l.length := by
  induction l with
  | nil => simp [mapGet] at h
  | cons p rest ih =>
    obtain ⟨a, b⟩ := p
    by_cases ha : a = k
    · simp [mapDelete, ha]
    · simp only [mapGet, if_neg ha] at h
      simp [mapDelete, ha, ih h]

theorem mem_of_mapGet_eq_some {β : Type} (l : List (String × β)) (k : String) (v : β)
    (h : mapGet l k = some v) : (k, v) ∈ l := by
  induction l with
  | nil => simp [mapGet] at h
  | cons p rest ih =>
    obtain ⟨a, b⟩ := p
    by_cases ha : a = k
    · subst ha
      simp [mapGet] at h
      simp [h]
    · simp only [mapGet, if_neg ha] at h
      exact List.mem_cons_of_mem _ (ih h)

theorem foldl_add_eq_sum {α : Type} (g : α → ℕ) (l : List α) (s : ℕ) :
    l.foldl (fun acc p => acc + g p) s = s + (l.map g).sum := by
  induction l generalizing s with
  | nil => simp
  | cons a rest ih => simp [ih, Nat.add_assoc]

/-! ### Cache claim theorems -/

/-- Claim C2 (evaluation of the failing input): with `maxSize = 1`, inserting
the two distinct keys `"a"` and `"b"` at the same millisecond leaves 2 entries
in a cache whose capacity is 1.  `evictLRU` initialises its candidate time to
the current clock and only replaces it on a strictly smaller `lastAccessed`,
so when every entry was last accessed at the current millisecond no key is
selected and nothing is evicted. -/
theorem cacheSizeBound_violated_at_equal_timestamps :
    (((emptyCache ℕ 1 1000).set "a" 0 none 0).set "b" 0 none 0).cache.length = 2 ∧
    (((emptyCache ℕ 1 1000).set "a" 0 none 0).set "b" 0 none 0).maxSize = 1 := by
  constructor <;> rfl

/-- Claim C5 counterexample: with the cache at capacity (`maxSize = 2`,
holding `"a"` and `"b"`), overwriting the already-present key `"b"` evicts the
other entry `"a"` — contradicting the claim that eviction happens only when
the inserted key is new. -/
theorem set_overwrite_evicts_other_entry :
    mapGet ((((emptyCache ℕ 2 1000).set "a" 1 none 0).set "b" 2 none 1).cache) "a" =
      some { value := 1, timestamp := 0, ttl := 1000, accessCount := 0,
             lastAccessed := 0 } ∧
    mapGet (((((emptyCache ℕ 2 1000).set "a" 1 none 0).set "b" 2 none 1).set
        "b" 3 none 2).cache) "a" = none := by
  constructor <;> rfl

/-- Claim C5 (amended): `set` runs its eviction whenever the cache already
holds at least `maxSize` entries, whether or not the key is present; when the
cache is strictly below capacity, `set` — insert or overwrite — leaves every
other key's entry and metadata unchanged. -/
theorem set_below_capacity_frame {T : Type} (c : CacheManager T) (k : String)
    (v : T) (ttl : Option ℤ) (now : ℤ) (k' : String)
    (hsize : c.cache.length < c.maxSize) (hne : k' ≠ k) :
    mapGet (c.set k v ttl now).cache k' = mapGet c.cache k' := by
  unfold CacheManager.set
  simp only [Nat.not_le.mpr hsize, if_neg, if_false]
  exact mapGet_mapSet_ne _ _ _ _ hne

theorem set_below_capacity_frame_witness :
    ((emptyCache ℕ 2 1000).set "a" 1 none 0).cache.length <
        ((emptyCache ℕ 2 1000).set "a" 1 none 0).maxSize ∧
    ("a" : String) ≠ "b" ∧
    mapGet ((((emptyCache ℕ 2 1000).set "a" 1 none 0).set "b" 2 none 5).cache) "a" =
      mapGet (((emptyCache ℕ 2 1000).set "a" 1 none 0).cache) "a" :=
  ⟨by decide, by decide,
    set_below_capacity_frame ((emptyCache ℕ 2 1000).set "a" 1 none 0) "b" 2 none 5 "a"
      (by decide) (by decide)⟩

/-- Claim C10: overwriting an already-present key stores a fresh entry whose
`accessCount` is 0 and whose `timestamp` and `lastAccessed` are the time of
the overwrite — the accumulated access statistics are discarded and the TTL
clock restarts. -/
theorem set_overwrite_resets_entry {T : Type} (c : CacheManager T) (k : String)
    (v : T) (ttl : Option ℤ) (now : ℤ) (it0 : CacheItem T)
    (hmem : mapGet c.cache k = some it0) :
    mapGet ((c.set k v ttl now)).cache k =
      some { value := v, timestamp := now, ttl := resolveTTL c ttl,
             accessCount := 0, lastAccessed := now } := by
  unfold CacheManager.set
  exact mapGet_mapSet_self _ _ _

theorem set_overwrite_resets_entry_witness :
    mapGet (((emptyCache ℕ 2 1000).set "a" 5 none 0).cache) "a" =
      some { value := 5, timestamp := 0, ttl := 1000, accessCount := 0,
             lastAccessed := 0 } ∧
    mapGet ((((emptyCache ℕ 2 1000).set "a" 5 none 0).set "a" 7 (some 50) 3).cache) "a" =
      some { value := 7, timestamp := 3, ttl := 50, accessCount := 0,
             lastAccessed := 3 } :=
  ⟨by decide,
    set_overwrite_resets_entry ((emptyCache ℕ 2 1000).set "a" 5 none 0) "a" 7 (some 50) 3
      { value := 5, timestamp := 0, ttl := 1000, accessCount := 0, lastAccessed := 0 }
      (by decide)⟩

/-- Claim C7: `set(k, v, ttl)` with `ttl > 0` followed by an immediate
`get(k)` returns `v`; once strictly more than `ttl` has elapsed, `get(k)`
returns `none`, increments the miss counter, deletes the entry, and the entry
no longer counts toward `getStats().totalItems`. -/
theorem cache_roundtrip_and_expiry {T : Type} (c : CacheManager T) (k : String)
    (v : T) (ttl now now₂ : ℤ) (serLen : T → ℕ)
    (httl : 0 < ttl) (hexp : now₂ - now > ttl) :
    ((c.set k v (some ttl) now).get k now).1 = some v ∧
    ((c.set k v (some ttl) now).get k now₂).1 = none ∧
    ((c.set k v (some ttl) now).get k now₂).2.misses = (c.set k v (some ttl) now).misses + 1 ∧
    (((c.set k v (some ttl) now).get k now₂).2.getStats serLen).totalItems + 1 =
      ((c.set k v (some ttl) now).getStats serLen).totalItems := by
  have hres : resolveTTL c (some ttl) = ttl := by
    have : ttl ≠ 0 := by omega
    simp [resolveTTL, this]
  have hmem : mapGet (c.set k v (some ttl) now).cache k =
      some { value := v, timestamp := now, ttl := ttl, accessCount := 0,
             lastAccessed := now } := by
    unfold CacheManager.set
    rw [mapGet_mapSet_self, hres]
  have hfresh : ¬ (ttl < (0 : ℤ)) := by omega
  refine ⟨?_, ?_, ?_, ?_⟩
  · simp [CacheManager.get, hmem, hfresh]
  · simp [CacheManager.get, hmem, hexp]
  · simp [CacheManager.get, hmem, hexp]
  · simp only [CacheManager.get, hmem, hexp, if_pos, CacheManager.getStats]
    exact length_mapDelete _ _ _ hmem

theorem cache_roundtrip_and_expiry_witness :
    (0 : ℤ) < 5 ∧ ((6 : ℤ) - 0 > 5) ∧
    (((emptyCache ℕ 10 1000).set "a" 1 (some 5) 0).get "a" 0).1 = some 1 ∧
    (((emptyCache ℕ 10 1000).set "a" 1 (some 5) 0).get "a" 6).1 = none ∧
    (((emptyCache ℕ 10 1000).set "a" 1 (some 5) 0).get "a" 6).2.misses =
      ((emptyCache ℕ 10 1000).set "a" 1 (some 5) 0).misses + 1 ∧
    ((((emptyCache ℕ 10 1000).set "a" 1 (some 5) 0).get "a" 6).2.getStats
        (fun _ => 1)).totalItems + 1 =
      (((emptyCache ℕ 10 1000).set "a" 1 (some 5) 0).getStats (fun _ => 1)).totalItems :=
  ⟨by decide, by decide,
    cache_roundtrip_and_expiry (emptyCache ℕ 10 1000) "a" 1 5 0 6 (fun _ => 1)
      (by decide) (by decide)⟩

/-- Claim C9: `getStats` and `getMostUsed` perform no expiry check: an entry
whose TTL has elapsed still counts toward `totalItems`, still contributes its
full heuristic size to `memoryUsage`, and its key still appears in the
`getMostUsed` listing (here with `limit` at least the number of entries). -/
theorem stats_ignore_expiry {T : Type} (c : CacheManager T) (serLen : T → ℕ)
    (k : String) (it : CacheItem T) (now : ℤ) (limit : ℕ)
    (hmem : mapGet c.cache k = some it) (hexp : now - it.timestamp > it.ttl)
    (hlim : c.cache.length ≤ limit) :
    (c.getStats serLen).totalItems = c.cache.length ∧
    entrySize serLen (k, it) ≤ (c.getStats serLen).memoryUsage ∧
    k ∈ (c.getMostUsed limit).map Prod.fst := by
  have hin : (k, it) ∈ c.cache := mem_of_mapGet_eq_some _ _ _ hmem
  refine ⟨rfl, ?_, ?_⟩
  · have h1 : (c.getStats serLen).memoryUsage =
        (c.cache.map (entrySize serLen)).sum := by
      simp [CacheManager.getStats, foldl_add_eq_sum]
    rw [h1]
    exact List.le_sum_of_mem (List.mem_map_of_mem _ hin)
  · unfold CacheManager.getMostUsed
    set l := c.cache.map (fun p => (p.1, p.2.accessCount)) with hl
    have hperm := List.mergeSort_perm l (fun a b => decide (b.2 ≤ a.2))
    have hlen : (l.mergeSort (fun a b => decide (b.2 ≤ a.2))).length ≤ limit := by
      rw [hperm.length_eq]
      simpa [hl] using hlim
    rw [List.take_of_length_le hlen]
    have hmeml : (k, it.accessCount) ∈ l := by
      rw [hl]
      exact List.mem_map_of_mem _ hin
    exact List.mem_map_of_mem Prod.fst (hperm.mem_iff.mpr hmeml)

theorem stats_ignore_expiry_witness :
    mapGet ((((emptyCache ℕ 3 1000).set "a" 1 (some 5) 0).set "b" 2 none 1).cache) "a" =
      some { value := 1, timestamp := 0, ttl := 5, accessCount := 0, lastAccessed := 0 } ∧
    ((100 : ℤ) - 0 > 5) ∧
    ((((emptyCache ℕ 3 1000).set "a" 1 (some 5) 0).set "b" 2 none 1).cache.length ≤ 10) ∧
    (((((emptyCache ℕ 3 1000).set "a" 1 (some 5) 0).set "b" 2 none 1).getStats
        (fun _ => 1)).totalItems =
      (((emptyCache ℕ 3 1000).set "a" 1 (some 5) 0).set "b" 2 none 1).cache.length ∧
    entrySize (fun _ => 1) ("a",
        { value := 1, timestamp := 0, ttl := 5, accessCount := 0, lastAccessed := 0 }) ≤
      (((((emptyCache ℕ 3 1000).set "a" 1 (some 5) 0).set "b" 2 none 1)).getStats
        (fun _ => 1)).memoryUsage ∧
    "a" ∈ ((((emptyCache ℕ 3 1000).set "a" 1 (some 5) 0).set "b" 2 none 1).getMostUsed
        10).map Prod.fst) :=
  ⟨by decide, by decide, by decide,
    stats_ignore_expiry (((emptyCache ℕ 3 1000).set "a" 1 (some 5) 0).set "b" 2 none 1)
      (fun _ => 1) "a"
      { value := 1, timestamp := 0, ttl := 5, accessCount := 0, lastAccessed := 0 }
      100 10 (by decide) (by decide) (by decide)⟩

/-! ### Retry claim lemmas and theorems -/

theorem executeLoop_all_fail {ε α : Type} (op : ℕ → Except ε α)
    (cfg : RetryConfig ε) (rand : ℕ → ℚ) (rem : ℕ) :
    ∀ (a : ℕ) (acc : List (RetryAttempt ε)),
      a + rem = cfg.maxAttempts + 1 → 1 ≤ a → a ≤ cfg.maxAttempts →
      (∀ i, a ≤ i → i ≤ cfg.maxAttempts →
        ∃ e, op i = Except.error e ∧ cfg.retryCondition e = true) →
      ∃ r, executeLoop op cfg rand a rem acc = some r ∧ r.success = false ∧
        r.attempts.length = acc.length + rem := by
  induction rem with
  | zero => intro a acc hsum h1 hle hops; omega
  | succ rem ih =>
    intro a acc hsum h1 hle hops
    obtain ⟨e, hop, hret⟩ := hops a le_rfl hle
    by_cases hlast : a = cfg.maxAttempts
    · subst hlast
      refine ⟨RetryResult.mk false none (some e)
          (acc ++ [RetryAttempt.mk cfg.maxAttempts e 0]), ?_, rfl, ?_⟩
      · simp [executeLoop, hop, hret]
      · simp
        omega
    · have hrem : a + 1 + rem = cfg.maxAttempts + 1 := by omega
      have hle' : a + 1 ≤ cfg.maxAttempts := by omega
      obtain ⟨r, hr, hs, hlen⟩ := ih (a + 1)
        (acc ++ [RetryAttempt.mk a e (calculateDelay a cfg (rand a))])
        hrem (by omega) hle'
        (fun i hi1 hi2 => hops i (by omega) hi2)
      refine ⟨r, ?_, hs, ?_⟩
      · simpa [executeLoop, hop, hret, hlast] using hr
      · simp at hlen
        omega

theorem executeLoop_fail_then_ok {ε α : Type} (op : ℕ → Except ε α)
    (cfg : RetryConfig ε) (rand : ℕ → ℚ) (k : ℕ) (v : α) (rem : ℕ) :
    ∀ (a : ℕ) (acc : List (RetryAttempt ε)),
      a + rem = cfg.maxAttempts + 1 → 1 ≤ a → a ≤ k + 1 → k + 1 ≤ cfg.maxAttempts →
      (∀ i, a ≤ i → i ≤ k →
        ∃ e, op i = Except.error e ∧ cfg.retryCondition e = true) →
      op (k + 1) = Except.ok v →
      ∃ r, executeLoop op cfg rand a rem acc = some r ∧ r.success = true ∧
        r.result = some v ∧ r.attempts.length = acc.length + (k + 1 - a) := by
  induction rem with
  | zero => intro a acc hsum h1 hak hkm hops hok; omega
  | succ rem ih =>
    intro a acc hsum h1 hak hkm hops hok
    by_cases hhit : a = k + 1
    · subst hhit
      refine ⟨RetryResult.mk true (some v) none acc, ?_, rfl, rfl, ?_⟩
      · simp [executeLoop, hok]
      · simp
    · obtain ⟨e, hop, hret⟩ := hops a le_rfl (by omega)
      have hlast : a ≠ cfg.maxAttempts := by omega
      obtain ⟨r, hr, hs, hres, hlen⟩ := ih (a + 1)
        (acc ++ [RetryAttempt.mk a e (calculateDelay a cfg (rand a))])
        (by omega) (by omega) (by omega) hkm
        (fun i hi1 hi2 => hops i (by omega) hi2) hok
      refine ⟨r, ?_, hs, hres, ?_⟩
      · simpa [executeLoop, hop, hret, hlast] using hr
      · simp at hlen
        omega

/-- Claim C4: with `maxAttempts = n ≥ 1`, an operation failing retryably on
every attempt yields a failed outcome with exactly `n` attempt records; an
operation failing retryably on attempts `1..k` (`k < n`) and succeeding on
attempt `k+1` yields a successful outcome carrying the operation's result and
exactly `k` attempt records. -/
theorem execute_attempt_counts {ε α : Type} (cfg : RetryConfig ε) (rand : ℕ → ℚ)
    (n : ℕ) (hn : cfg.maxAttempts = n) (h1 : 1 ≤ n) :
    (∀ op : ℕ → Except ε α,
      (∀ i, 1 ≤ i → i ≤ n → ∃ e, op i = Except.error e ∧ cfg.retryCondition e = true) →
      ∃ r, execute op cfg rand = some r ∧ r.success = false ∧
        r.attempts.length = n) ∧
    (∀ (op : ℕ → Except ε α) (k : ℕ) (v : α), k < n →
      (∀ i, 1 ≤ i → i ≤ k → ∃ e, op i = Except.error e ∧ cfg.retryCondition e = true) →
      op (k + 1) = Except.ok v →
      ∃ r, execute op cfg rand = some r ∧ r.success = true ∧ r.result = some v ∧
        r.attempts.length = k) := by
  subst hn
  constructor
  · intro op hops
    obtain ⟨r, hr, hs, hlen⟩ :=
      executeLoop_all_fail op cfg rand cfg.maxAttempts 1 [] (by omega) le_rfl h1 hops
    exact ⟨r, hr, hs, by simpa using hlen⟩
  · intro op k v hk hops hok
    obtain ⟨r, hr, hs, hres, hlen⟩ :=
      executeLoop_fail_then_ok op cfg rand k v cfg.maxAttempts 1 [] (by omega) le_rfl
        (by omega) (by omega) hops hok
    exact ⟨r, hr, hs, hres, by simpa using hlen⟩

theorem execute_attempt_counts_witness :
    (∃ r, execute (fun _ => (Except.error () : Except Unit ℕ))
        { maxAttempts := 2, baseDelay := 1, maxDelay := 10, backoffFactor := 2,
          jitter := false, retryCondition := fun (_ : Unit) => true } (fun _ => 0) =
          some r ∧ r.success = false ∧ r.attempts.length = 2) ∧
    (∃ r, execute (fun i => if i = 2 then Except.ok (7 : ℕ) else Except.error ())
        { maxAttempts := 2, baseDelay := 1, maxDelay := 10, backoffFactor := 2,
          jitter := false, retryCondition := fun (_ : Unit) => true } (fun _ => 0) =
          some r ∧ r.success = true ∧ r.result = some 7 ∧ r.attempts.length = 1) := by
  constructor
  · exact (execute_attempt_counts
      { maxAttempts := 2, baseDelay := 1, maxDelay := 10, backoffFactor := 2,
        jitter := false, retryCondition := fun (_ : Unit) => true } (fun _ => 0) 2 rfl
      (by omega)).1 (fun _ => (Except.error () : Except Unit ℕ))
      (fun i _ _ => ⟨(), rfl, rfl⟩)
  · exact (execute_attempt_counts
      { maxAttempts := 2, baseDelay := 1, maxDelay := 10, backoffFactor := 2,
        jitter := false, retryCondition := fun (_ : Unit) => true } (fun _ => 0) 2 rfl
      (by omega)).2 (fun i => if i = 2 then Except.ok 7 else Except.error ()) 1 7
      (by omega)
      (fun i hi1 hi2 => ⟨(), by
        have : i = 1 := by omega
        subst this
        rfl, rfl⟩)
      rfl

/-- Claim C6: with jitter disabled and `backoffFactor > 1`, the delay before
the wait following failed attempt `i` equals
`min(baseDelay * backoffFactor ^ (i - 1), maxDelay)`, and these delays are
non-decreasing in the attempt ordinal. -/
theorem calculateDelay_no_jitter {ε : Type} (cfg : RetryConfig ε) (rand rand' : ℚ)
    (i j : ℕ) (hj : cfg.jitter = false) (hb : 0 ≤ cfg.baseDelay)
    (hm : 0 ≤ cfg.maxDelay) (hf : 1 < cfg.backoffFactor) (hij : i ≤ j) :
    calculateDelay i cfg rand =
      min (cfg.baseDelay * cfg.backoffFactor ^ (i - 1)) cfg.maxDelay ∧
    calculateDelay i cfg rand ≤ calculateDelay j cfg rand' := by
  have hfpos : (0 : ℚ) ≤ cfg.backoffFactor := le_of_lt (lt_trans zero_lt_one hf)
  have hev : ∀ (m : ℕ) (r : ℚ), calculateDelay m cfg r =
      min (cfg.baseDelay * cfg.backoffFactor ^ (m - 1)) cfg.maxDelay := by
    intro m r
    have hx : 0 ≤ cfg.baseDelay * cfg.backoffFactor ^ (m - 1) :=
      mul_nonneg hb (pow_nonneg hfpos _)
    have : 0 ≤ min (cfg.baseDelay * cfg.backoffFactor ^ (m - 1)) cfg.maxDelay :=
      le_min hx hm
    simp [calculateDelay, hj, max_eq_left this]
  refine ⟨hev i rand, ?_⟩
  rw [hev i rand, hev j rand']
  have hpow : cfg.backoffFactor ^ (i - 1) ≤ cfg.backoffFactor ^ (j - 1) :=
    pow_le_pow_right₀ (le_of_lt hf) (by omega)
  exact min_le_min (mul_le_mul_of_nonneg_left hpow hb) le_rfl

theorem calculateDelay_no_jitter_witness :
    calculateDelay 2
        { maxAttempts := 3, baseDelay := 100, maxDelay := 30000, backoffFactor := 2,
          jitter := false, retryCondition := fun (_ : Unit) => true } 0 =
      min ((100 : ℚ) * 2 ^ (2 - 1)) 30000 ∧
    calculateDelay 2
        { maxAttempts := 3, baseDelay := 100, maxDelay := 30000, backoffFactor := 2,
          jitter := false, retryCondition := fun (_ : Unit) => true } 0 ≤
      calculateDelay 3
        { maxAttempts := 3, baseDelay := 100, maxDelay := 30000, backoffFactor := 2,
          jitter := false, retryCondition := fun (_ : Unit) => true } 0 :=
  calculateDelay_no_jitter
    { maxAttempts := 3, baseDelay := 100, maxDelay := 30000, backoffFactor := 2,
      jitter := false, retryCondition := fun (_ : Unit) => true } 0 0 2 3 rfl
    (by norm_num) (by norm_num) (by norm_num) (by omega)

theorem isCircuitOpen_of_none {m : CircuitMap} {key : String} (now : ℤ)
    (h : m key = none) : isCircuitOpen m key now = (false, m) := by
  simp [isCircuitOpen, h]

theorem isCircuitOpen_of_closed {m : CircuitMap} {key : String} (now : ℤ)
    {st : CBState} (h : m key = some st) (hc : st.state = CBPhase.closed) :
    isCircuitOpen m key now = (false, m) := by
  simp [isCircuitOpen, h, hc]

theorem retryWithCB_fail {ε α : Type} {op : ℕ → Except ε α} {key : String}
    {cfg : RetryConfig ε} {rand : ℕ → ℚ} {m : CircuitMap} {tCheck tDone : ℤ}
    {r : RetryResult ε α} (hno : isCircuitOpen m key tCheck = (false, m))
    (hr : execute op cfg rand = some r) (hs : r.success = false) :
    (retryWithCircuitBreaker op key cfg rand m tCheck tDone).2 =
      recordFailure m key tDone := by
  simp [retryWithCircuitBreaker, hno, hr, hs]

theorem recordFailure_at_key_none {m : CircuitMap} {key : String} (now : ℤ)
    (h : m key = none) :
    recordFailure m key now key =
      some { failures := 1, lastFailure := now, state := CBPhase.closed } := by
  simp [recordFailure, h]

theorem recordFailure_at_key {m : CircuitMap} {key : String} (now : ℤ)
    {st : CBState} (h : m key = some st) :
    recordFailure m key now key =
      some (if st.failures + 1 ≥ 5
        then { failures := st.failures + 1, lastFailure := now, state := CBPhase.opened }
        else { failures := st.failures + 1, lastFailure := now, state := st.state }) := by
  by_cases h5 : st.failures + 1 ≥ 5 <;> simp [recordFailure, h, h5]

/-- Claim C3: five consecutive `retryWithCircuitBreaker` calls on a key whose
outcomes are failures leave that key's circuit open with 5 recorded failures;
while at most 60 s have passed since the fifth failure, any further call on
the key returns the synchronous `circuit open` error with no `RetryResult`
(hence zero attempt records), and its outcome and state are independent of
the operation, config, random draws and completion clock — the operation is
never consulted; finally, once strictly more than 60 s have passed since the
recorded last failure, `isCircuitOpen` reports not-open whatever the phase,
letting one probe call through. -/
theorem circuit_opens_after_five_failures {ε α : Type} (key : String)
    (ops : ℕ → ℕ → Except ε α) (cfgs : ℕ → RetryConfig ε) (rands : ℕ → ℕ → ℚ)
    (tc td : ℕ → ℤ) (rs : ℕ → RetryResult ε α)
    (hfail : ∀ i, i < 5 →
      execute (ops i) (cfgs i) (rands i) = some (rs i) ∧ (rs i).success = false) :
    (cbCallSeq key ops cfgs rands tc td 5 key =
      some { failures := 5, lastFailure := td 4, state := CBPhase.opened }) ∧
    (∀ (op' : ℕ → Except ε α) (cfg' : RetryConfig ε) (rand' : ℕ → ℚ) (now tDone' : ℤ),
      now - td 4 ≤ 60000 →
      (retryWithCircuitBreaker op' key cfg' rand'
          (cbCallSeq key ops cfgs rands tc td 5) now tDone').1 =
        Except.error ("Circuit breaker is open for " ++ key) ∧
      (∀ (op'' : ℕ → Except ε α) (cfg'' : RetryConfig ε) (rand'' : ℕ → ℚ) (tDone'' : ℤ),
        retryWithCircuitBreaker op' key cfg' rand'
            (cbCallSeq key ops cfgs rands tc td 5) now tDone' =
          retryWithCircuitBreaker op'' key cfg'' rand''
            (cbCallSeq key ops cfgs rands tc td 5) now tDone'')) ∧
    (∀ (m' : CircuitMap) (st : CBState) (now : ℤ), m' key = some st →
      now - st.lastFailure > 60000 → (isCircuitOpen m' key now).1 = false) := by
  have h0 := hfail 0 (by omega)
  have h1 := hfail 1 (by omega)
  have h2 := hfail 2 (by omega)
  have h3 := hfail 3 (by omega)
  have h4 := hfail 4 (by omega)
  have hstep : ∀ i, cbCallSeq key ops cfgs rands tc td (i + 1) =
      (retryWithCircuitBreaker (ops i) key (cfgs i) (rands i)
        (cbCallSeq key ops cfgs rands tc td i) (tc i) (td i)).2 := fun i => rfl
  have hm1 : cbCallSeq key ops cfgs rands tc td 1 key =
      some { failures := 1, lastFailure := td 0, state := CBPhase.closed } := by
    rw [hstep, retryWithCB_fail (isCircuitOpen_of_none (tc 0) rfl) h0.1 h0.2,
      recordFailure_at_key_none (td 0) rfl]
  have hm2 : cbCallSeq key ops cfgs rands tc td 2 key =
      some { failures := 2, lastFailure := td 1, state := CBPhase.closed } := by
    rw [hstep, retryWithCB_fail (isCircuitOpen_of_closed (tc 1) hm1 rfl) h1.1 h1.2,
      recordFailure_at_key (td 1) hm1]
    norm_num
  have hm3 : cbCallSeq key ops cfgs rands tc td 3 key =
      some { failures := 3, lastFailure := td 2, state := CBPhase.closed } := by
    rw [hstep, retryWithCB_fail (isCircuitOpen_of_closed (tc 2) hm2 rfl) h2.1 h2.2,
      recordFailure_at_key (td 2) hm2]
    norm_num
  have hm4 : cbCallSeq key ops cfgs rands tc td 4 key =
      some { failures := 4, lastFailure := td 3, state := CBPhase.closed } := by
    rw [hstep, retryWithCB_fail (isCircuitOpen_of_closed (tc 3) hm3 rfl) h3.1 h3.2,
      recordFailure_at_key (td 3) hm3]
    norm_num
  have hm5 : cbCallSeq key ops cfgs rands tc td 5 key =
      some { failures := 5, lastFailure := td 4, state := CBPhase.opened } := by
    rw [hstep, retryWithCB_fail (isCircuitOpen_of_closed (tc 4) hm4 rfl) h4.1 h4.2,
      recordFailure_at_key (td 4) hm4]
    norm_num
  refine ⟨hm5, ?_, ?_⟩
  · intro op' cfg' rand' now tDone' hcool
    have hopen : isCircuitOpen (cbCallSeq key ops cfgs rands tc td 5) key now =
        (true, cbCallSeq key ops cfgs rands tc td 5) := by
      simp only [isCircuitOpen, hm5]
      have : ¬ (now - td 4 > 60000) := by omega
      simp [this]
    constructor
    · simp [retryWithCircuitBreaker, hopen]
    · intro op'' cfg'' rand'' tDone''
      simp [retryWithCircuitBreaker, hopen]
  · intro m' st now hst hcool
    rcases hphase : st.state with _ | _ | _ <;>
      simp [isCircuitOpen, hst, hphase, hcool]

theorem circuit_opens_after_five_failures_witness :
    (cbCallSeq "k" (fun _ _ => (Except.error () : Except Unit ℕ))
      (fun _ => { maxAttempts := 1, baseDelay := 1, maxDelay := 10, backoffFactor := 2,
                  jitter := false, retryCondition := fun (_ : Unit) => false })
      (fun _ _ => 0) (fun _ => 0) (fun _ => 0) 5 "k" =
        some { failures := 5, lastFailure := 0, state := CBPhase.opened }) ∧
    ((retryWithCircuitBreaker (fun _ => (Except.ok 3 : Except Unit ℕ)) "k"
        { maxAttempts := 1, baseDelay := 1, maxDelay := 10, backoffFactor := 2,
          jitter := false, retryCondition := fun (_ : Unit) => false } (fun _ => 0)
        (cbCallSeq "k" (fun _ _ => (Except.error () : Except Unit ℕ))
          (fun _ => { maxAttempts := 1, baseDelay := 1, maxDelay := 10, backoffFactor := 2,
                      jitter := false, retryCondition := fun (_ : Unit) => false })
          (fun _ _ => 0) (fun _ => 0) (fun _ => 0) 5) 0 0).1 =
      Except.error ("Circuit breaker is open for " ++ "k")) ∧
    (retryWithCircuitBreaker (fun _ => (Except.ok 3 : Except Unit ℕ)) "k"
        { maxAttempts := 1, baseDelay := 1, maxDelay := 10, backoffFactor := 2,
          jitter := false, retryCondition := fun (_ : Unit) => false } (fun _ => 0)
        (cbCallSeq "k" (fun _ _ => (Except.error () : Except Unit ℕ))
          (fun _ => { maxAttempts := 1, baseDelay := 1, maxDelay := 10, backoffFactor := 2,
                      jitter := false, retryCondition := fun (_ : Unit) => false })
          (fun _ _ => 0) (fun _ => 0) (fun _ => 0) 5) 0 0 =
      retryWithCircuitBreaker (fun _ => (Except.error () : Except Unit ℕ)) "k"
        { maxAttempts := 2, baseDelay := 7, maxDelay := 90, backoffFactor := 3,
          jitter := true, retryCondition := fun (_ : Unit) => true } (fun _ => 1)
        (cbCallSeq "k" (fun _ _ => (Except.error () : Except Unit ℕ))
          (fun _ => { maxAttempts := 1, baseDelay := 1, maxDelay := 10, backoffFactor := 2,
                      jitter := false, retryCondition := fun (_ : Unit) => false })
          (fun _ _ => 0) (fun _ => 0) (fun _ => 0) 5) 0 1) ∧
    ((isCircuitOpen (fun _ => some (CBState.mk 5 0 CBPhase.opened)) "k" 70000).1 =
      false) :=
  have H := circuit_opens_after_five_failures (ε := Unit) (α := ℕ) "k"
    (fun _ _ => Except.error ())
    (fun _ => { maxAttempts := 1, baseDelay := 1, maxDelay := 10, backoffFactor := 2,
                jitter := false, retryCondition := fun (_ : Unit) => false })
    (fun _ _ => 0) (fun _ => 0) (fun _ => 0)
    (fun _ => RetryResult.mk false none (some ()) [RetryAttempt.mk 1 () 0])
    (fun _ _ => ⟨rfl, rfl⟩)
  ⟨H.1,
    (H.2.1 (fun _ => Except.ok 3)
      { maxAttempts := 1, baseDelay := 1, maxDelay := 10, backoffFactor := 2,
        jitter := false, retryCondition := fun (_ : Unit) => false } (fun _ => 0) 0 0
      (by decide)).1,
    (H.2.1 (fun _ => Except.ok 3)
      { maxAttempts := 1, baseDelay := 1, maxDelay := 10, backoffFactor := 2,
        jitter := false, retryCondition := fun (_ : Unit) => false } (fun _ => 0) 0 0
      (by decide)).2 (fun _ => Except.error ())
      { maxAttempts := 2, baseDelay := 7, maxDelay := 90, backoffFactor := 3,
        jitter := true, retryCondition := fun (_ : Unit) => true } (fun _ => 1) 1,
    H.2.2 (fun _ => some (CBState.mk 5 0 CBPhase.opened))
      (CBState.mk 5 0 CBPhase.opened) 70000 rfl (by decide)⟩

/-- Claim C1 (evaluation at the failing input): with no recorded metrics and
no recorded errors, the health score of `generateReport()` is `NaN` — not a
number in [0,100].  `errorsBySeverity.critical` is `undefined` when the
window holds no critical error, `undefined * 10` is `NaN`, and the
subtractions and the `Math.max(0, Math.min(100, _))` clamp propagate it.  The
same happens even for a perfectly healthy window (one fast successful
metric, no errors at all). -/
theorem healthScore_nan_without_critical_errors :
    generateHealthScore [] [] 0 = JSNum.nan ∧
    generateHealthScore
      [{ timestamp := 0, operation := "op", duration := 100, success := true }] [] 0 =
      JSNum.nan := by
  constructor <;> rfl

theorem bdCombine_breakdownStep (acc : String → Option OpBreakdown)
    (m : PerformanceMetric) (name : String) (hop : m.operation = name)
    (sub : List PerformanceMetric) :
    bdCombine (breakdownStep acc m name) sub = bdCombine (acc name) (m :: sub) := by
  subst hop
  cases hc : acc m.operation with
  | none =>
    by_cases hlen : sub = []
    · subst hlen
      simp [breakdownStep, bdCombine, hc, sumDur]
    · have hn : sub.length ≠ 0 := by simpa using hlen
      have hnq : ((sub.length : ℚ)) + 1 ≠ 0 := by positivity
      simp only [breakdownStep, if_pos rfl, hc, Option.getD_none, bdCombine,
        List.length_cons, Nat.add_eq_zero, one_ne_zero, and_false, if_false, hn,
        Nat.succ_ne_zero, reduceIte, Option.some.injEq, OpBreakdown.mk.injEq,
        sumDur, List.map_cons, List.sum_cons]
      refine ⟨by omega, ?_, trivial⟩
      push_cast
      ring
  | some b =>
    by_cases hlen : sub = []
    · subst hlen
      simp only [breakdownStep, if_pos rfl, hc, Option.getD_some, bdCombine,
        List.length_nil, List.length_cons, Nat.add_eq_zero, one_ne_zero, and_false,
        if_false, Nat.succ_ne_zero, reduceIte, Option.some.injEq, OpBreakdown.mk.injEq,
        sumDur, List.map_cons, List.map_nil, List.sum_cons, List.sum_nil]
      refine ⟨trivial, ?_, trivial⟩
      push_cast
      ring
    · have hn : sub.length ≠ 0 := by simpa using hlen
      have hb1 : ((b.count : ℚ)) + 1 ≠ 0 := by positivity
      simp only [breakdownStep, if_pos rfl, hc, Option.getD_some, bdCombine,
        List.length_cons, Nat.add_eq_zero, one_ne_zero, and_false, if_false, hn,
        Nat.succ_ne_zero, reduceIte, Option.some.injEq, OpBreakdown.mk.injEq,
        sumDur, List.map_cons, List.sum_cons]
      have h2 : ((b.count : ℚ) + 1 + (sub.length : ℚ)) ≠ 0 := by positivity
      have h3 : ((b.count : ℚ) + ((sub.length : ℚ) + 1)) ≠ 0 := by positivity
      refine ⟨by omega, ?_, trivial⟩
      push_cast
      field_simp
      ring

theorem foldl_breakdownStep (l : List PerformanceMetric) :
    ∀ (acc : String → Option OpBreakdown) (name : String),
      (l.foldl breakdownStep acc) name =
        bdCombine (acc name) (l.filter (fun m => decide (m.operation = name))) := by
  induction l with
  | nil =>
    intro acc name
    cases hc : acc name with
    | none => simp [bdCombine, hc]
    | some b => simp [bdCombine, hc]
  | cons m rest ih =>
    intro acc name
    by_cases hop : m.operation = name
    · have hl : List.foldl breakdownStep acc (m :: rest) name =
          List.foldl breakdownStep (breakdownStep acc m) rest name := rfl
      have hfilter : (m :: rest).filter (fun x => decide (x.operation = name)) =
          m :: rest.filter (fun x => decide (x.operation = name)) := by
        simp [List.filter, hop]
      rw [hl, ih (breakdownStep acc m) name, hfilter]
      exact bdCombine_breakdownStep acc m name hop _
    · have hl : List.foldl breakdownStep acc (m :: rest) name =
          List.foldl breakdownStep (breakdownStep acc m) rest name := rfl
      have hfilter : (m :: rest).filter (fun x => decide (x.operation = name)) =
          rest.filter (fun x => decide (x.operation = name)) := by
        simp [List.filter, hop]
      have hacc : (breakdownStep acc m) name = acc name := by
        simp [breakdownStep, Ne.symm hop]
      rw [hl, ih (breakdownStep acc m) name, hfilter, hacc]

/-- Claim C8: the per-name `avgTime` computed by the incremental update
`avg = (avg * (count - 1) + duration) / count` in `getPerformanceStats`
equals the plain arithmetic mean of the durations of that name's metrics
within the window, and is therefore independent of the order in which the
metrics were recorded (invariant under permutation of the metric log). -/
theorem breakdown_avgTime_eq_mean (metrics metrics' : List PerformanceMetric)
    (now timeRange : ℤ) (name : String) (hperm : metrics.Perm metrics') :
    (((getPerformanceStats metrics now timeRange).operationBreakdown name).map
        (fun b => b.avgTime) =
      (if ((recentMetrics metrics now timeRange).filter
            (fun m => decide (m.operation = name))).length = 0 then none
       else some (sumDur ((recentMetrics metrics now timeRange).filter
            (fun m => decide (m.operation = name))) /
          (((recentMetrics metrics now timeRange).filter
            (fun m => decide (m.operation = name))).length : ℚ)))) ∧
    ((getPerformanceStats metrics' now timeRange).operationBreakdown name).map
        (fun b => b.avgTime) =
      ((getPerformanceStats metrics now timeRange).operationBreakdown name).map
        (fun b => b.avgTime) := by
  have key : ∀ ms : List PerformanceMetric,
      ((getPerformanceStats ms now timeRange).operationBreakdown name).map
          (fun b => b.avgTime) =
        (if ((recentMetrics ms now timeRange).filter
              (fun m => decide (m.operation = name))).length = 0 then none
         else some (sumDur ((recentMetrics ms now timeRange).filter
              (fun m => decide (m.operation = name))) /
            (((recentMetrics ms now timeRange).filter
              (fun m => decide (m.operation = name))).length : ℚ))) := by
    intro ms
    simp only [getPerformanceStats]
    rw [foldl_breakdownStep]
    by_cases hlen : ((recentMetrics ms now timeRange).filter
        (fun m => decide (m.operation = name))).length = 0
    · simp [bdCombine, hlen]
    · simp [bdCombine, hlen]
  have hsubperm : ((recentMetrics metrics now timeRange).filter
      (fun m => decide (m.operation = name))).Perm
        ((recentMetrics metrics' now timeRange).filter
          (fun m => decide (m.operation = name))) :=
    (hperm.filter _).filter _
  have hlen := hsubperm.length_eq
  have hsum : sumDur ((recentMetrics metrics now timeRange).filter
      (fun m => decide (m.operation = name))) =
        sumDur ((recentMetrics metrics' now timeRange).filter
          (fun m => decide (m.operation = name))) := by
    unfold sumDur
    exact (hsubperm.map (fun m => m.duration)).sum_eq
  refine ⟨key metrics, ?_⟩
  rw [key metrics, key metrics', ← hlen, ← hsum]

theorem breakdown_avgTime_eq_mean_witness :
    (((getPerformanceStats
        [{ timestamp := 0, operation := "x", duration := 10, success := true },
         { timestamp := 0, operation := "x", duration := 20, success := false }] 0 100
        ).operationBreakdown "x").map (fun b => b.avgTime) =
      (if ((recentMetrics
            [{ timestamp := 0, operation := "x", duration := 10, success := true },
             { timestamp := 0, operation := "x", duration := 20, success := false }] 0 100
            ).filter (fun m => decide (m.operation = "x"))).length = 0 then none
       else some (sumDur ((recentMetrics
            [{ timestamp := 0, operation := "x", duration := 10, success := true },
             { timestamp := 0, operation := "x", duration := 20, success := false }] 0 100
            ).filter (fun m => decide (m.operation = "x"))) /
          (((recentMetrics
            [{ timestamp := 0, operation := "x", duration := 10, success := true },
             { timestamp := 0, operation := "x", duration := 20, success := false }] 0 100
            ).filter (fun m => decide (m.operation = "x"))).length : ℚ)))) ∧
    ((getPerformanceStats
        [{ timestamp := 0, operation := "x", duration := 20, success := false },
         { timestamp := 0, operation := "x", duration := 10, success := true }] 0 100
        ).operationBreakdown "x").map (fun b => b.avgTime) =
      ((getPerformanceStats
        [{ timestamp := 0, operation := "x", duration := 10, success := true },
         { timestamp := 0, operation := "x", duration := 20, success := false }] 0 100
        ).operationBreakdown "x").map (fun b => b.avgTime) :=
  breakdown_avgTime_eq_mean
    [{ timestamp := 0, operation := "x", duration := 10, success := true },
     { timestamp := 0, operation := "x", duration := 20, success := false }]
    [{ timestamp := 0, operation := "x", duration := 20, success := false },
     { timestamp := 0, operation := "x", duration := 10, success := true }]
    0 100 "x"
    (List.Perm.swap
      (PerformanceMetric.mk 0 "x" 20 false)
      (PerformanceMetric.mk 0 "x" 10 true) [])
